import Mathlib

/-! # Execution environment registry and URL substring helpers

A shallow embedding of `be/src/runtime/exec_env.h` (class `ExecEnv`) and of
`be/src/vec/functions/url/functions_url.h` (`ExtractSubstringImpl`,
`CutSubstringImpl`), followed by theorems about them.

Conventions of the embedding:

* a pointer-like member (raw pointer, `std::unique_ptr`, `std::shared_ptr`) is a
  `Handle`, the address of the pointee, with `none` for `nullptr`;
* the three `inline static std::atomic_bool` members are process-wide and live
  in `Statics`; the per-object members live in `ExecEnv`;
* a member function is a function on the state it can touch, returning the
  value it returns together with the state it leaves.
-/

namespace doris

/-- The address of a heap object; `none` is `nullptr`. -/
abbrev Handle := Option Nat

/-- The pointer-like data members of `ExecEnv`, by their source names
(exec_env.h lines 401-527); the member of type `BfdParser*` is written with a
trailing underscore. -/
inductive Field
  | _file_cache_factory | _user_function_cache | _external_scan_context_mgr
  | _vstream_mgr | _result_mgr | _result_queue_mgr
  | _backend_client_cache | _frontend_client_cache | _broker_client_cache
  | _orphan_mem_tracker | _brpc_iobuf_block_memory_tracker
  | _segcompaction_mem_tracker | _stream_load_pipe_tracker
  | _tablets_no_cache_mem_tracker | _rowsets_no_cache_mem_tracker
  | _segments_no_cache_mem_tracker | _point_query_executor_mem_tracker
  | _block_compression_mem_tracker | _query_cache_mem_tracker
  | _rowid_storage_reader_tracker | _subcolumns_tree_tracker
  | _s3_file_buffer_tracker | _parquet_meta_tracker
  | _send_batch_thread_pool | _buffered_reader_prefetch_thread_pool
  | _send_table_stats_thread_pool | _s3_file_upload_thread_pool
  | _lazy_release_obj_pool | _non_block_close_thread_pool
  | _s3_file_system_thread_pool
  | _fragment_mgr | _workload_group_manager | _result_cache | _cluster_info
  | _load_path_mgr | _bfd_parser_ | _broker_mgr | _load_channel_mgr
  | _load_stream_mgr | _new_load_stream_mgr
  | _internal_client_cache | _streaming_client_cache | _function_client_cache
  | _stream_load_executor | _routine_load_task_executor | _small_file_mgr
  | _heartbeat_flags | _scanner_scheduler | _file_meta_cache
  | _memtable_memory_limiter | _load_stream_map_pool | _delta_writer_v2_pool
  | _wal_manager | _dns_cache | _write_cooldown_meta_executors
  | _group_commit_mgr | _tablet_schema_cache | _tablet_column_object_pool
  | _storage_engine | _schema_cache | _storage_page_cache | _segment_loader
  | _lookup_connection_cache | _row_cache | _cache_manager | _id_manager
  | _process_profile | _heap_profiler | _inverted_index_searcher_cache
  | _inverted_index_query_cache | _query_cache | _file_cache_open_fd_cache
  | _delete_bitmap_agg_cache | _runtime_filter_timer_queue | _dict_factory
  | _workload_sched_mgr | _index_policy_mgr | _runtime_query_statistics_mgr
  | _pipeline_tracer_ctx | _tmp_file_dirs | _spill_stream_mgr
  | _orc_memory_pool | _arrow_memory_pool | _kerberos_ticket_mgr | _hdfs_mgr
  deriving DecidableEq, Repr

/-- The per-object state of an `ExecEnv`: every pointer-like member, the two
path vectors, the frontend map (address to info, both abstract) and the public
`mem_tracker_limiter_pool` (each group a list of tracker addresses). -/
structure ExecEnv where
  ptr : Field → Handle
  _store_paths : List String
  _spill_store_paths : List String
  _frontends : List (Nat × Nat)
  mem_tracker_limiter_pool : List (List Nat)

/-- The class statics `_s_ready`, `_s_tracking_memory`, `_s_upgrading`
(exec_env.h lines 395, 396, 399). -/
structure Statics where
  _s_ready : Bool
  _s_tracking_memory : Bool
  _s_upgrading : Bool
  deriving DecidableEq, Repr

/-- The statics at process start: all three are brace-initialised to `false`. -/
def Statics.initial : Statics :=
  { _s_ready := false, _s_tracking_memory := false, _s_upgrading := false }

/-- An `ExecEnv` as its default member initialisers leave it: every raw pointer
is `= nullptr`, every smart pointer and container is empty. -/
def ExecEnv.fresh : ExecEnv :=
  { ptr := fun _ => none, _store_paths := [], _spill_store_paths := [],
    _frontends := [], mem_tracker_limiter_pool := [] }

/-- Assignment to one pointer-like member: `this->f = v` (for a `unique_ptr`
member, `f.reset(v)` or `f = std::move(v)`). -/
def ExecEnv.assign (e : ExecEnv) (f : Field) (v : Handle) : ExecEnv :=
  { e with ptr := fun g => if g = f then v else e.ptr g }

/-! ## Static flag accessors (exec_env.h lines 168-171, 292-293, 322-324) -/

/-- Source: `static bool ready() { return _s_ready.load(acquire); }` -/
def ready (s : Statics) : Bool := s._s_ready

/-- Source: `static bool tracking_memory() { return _s_tracking_memory.load(acquire); }` -/
def tracking_memory (s : Statics) : Bool := s._s_tracking_memory

/-- Source: `static bool get_is_upgrading() { return _s_upgrading.load(acquire); }` -/
def get_is_upgrading (s : Statics) : Bool := s._s_upgrading

/-- Source: `static void set_is_upgrading() { _s_upgrading = true; }` -/
def set_is_upgrading (s : Statics) : Statics := { s with _s_upgrading := true }

/-- Source: `void set_ready() { this->_s_ready = true; }` -/
def set_ready (s : Statics) : Statics := { s with _s_ready := true }

/-- Source: `void set_not_ready() { this->_s_ready = false; }` -/
def set_not_ready (s : Statics) : Statics := { s with _s_ready := false }

/-- Source: `static void set_tracking_memory(bool b) { _s_tracking_memory.store(b, release); }` -/
def set_tracking_memory (b : Bool) (s : Statics) : Statics :=
  { s with _s_tracking_memory := b }

/-! ## Getters defined in the header -/

/-- The member functions of `ExecEnv` whose body in the header is
`return <member>;`, `return <member>.get();` or `return *<member>;` (the getter
of the `BfdParser*` member is written with a trailing underscore). -/
inductive Getter
  | storage_engine
  | external_scan_context_mgr | vstream_mgr | result_mgr | result_queue_mgr
  | client_cache | frontend_client_cache | broker_client_cache
  | workload_group_mgr | workload_sched_policy_mgr | runtime_query_statistics_mgr
  | orphan_mem_tracker | brpc_iobuf_block_memory_tracker
  | segcompaction_mem_tracker | stream_load_pipe_tracker
  | tablets_no_cache_mem_tracker | rowsets_no_cache_mem_tracker
  | segments_no_cache_mem_tracker | point_query_executor_mem_tracker
  | query_cache_mem_tracker | block_compression_mem_tracker
  | rowid_storage_reader_tracker | subcolumns_tree_tracker
  | s3_file_buffer_tracker | parquet_meta_tracker
  | send_batch_thread_pool | buffered_reader_prefetch_thread_pool
  | send_table_stats_thread_pool | s3_file_upload_thread_pool
  | lazy_release_obj_pool | s3_file_system_thread_pool
  | file_cache_factory | user_function_cache | fragment_mgr | result_cache
  | cluster_info | load_path_mgr | bfd_parser_ | broker_mgr
  | brpc_internal_client_cache | brpc_streaming_client_cache
  | brpc_function_client_cache | load_channel_mgr | load_stream_mgr
  | new_load_stream_mgr | small_file_mgr | spill_stream_mgr | group_commit_mgr
  | stream_load_executor | routine_load_task_executor | heartbeat_flags
  | scanner_scheduler | file_meta_cache | memtable_memory_limiter | wal_mgr
  | dns_cache | write_cooldown_meta_executors | kerberos_ticket_mgr | hdfs_mgr
  | index_policy_mgr | load_stream_map_pool | delta_writer_v2_pool
  | get_tablet_schema_cache | get_tablet_column_object_pool | schema_cache
  | get_storage_page_cache | segment_loader | get_lookup_connection_cache
  | get_row_cache | get_cache_manager | get_id_manager | get_process_profile
  | get_heap_profiler | get_inverted_index_searcher_cache
  | get_inverted_index_query_cache | get_query_cache
  | runtime_filter_timer_queue | dict_factory | pipeline_tracer_context
  | get_tmp_file_dirs | file_cache_open_fd_cache | orc_memory_pool
  | arrow_memory_pool | delete_bitmap_agg_cache
  deriving DecidableEq, Repr

/-- The member each getter returns. -/
def Getter.field : Getter → Field
  | .storage_engine => ._storage_engine
  | .external_scan_context_mgr => ._external_scan_context_mgr
  | .vstream_mgr => ._vstream_mgr
  | .result_mgr => ._result_mgr
  | .result_queue_mgr => ._result_queue_mgr
  | .client_cache => ._backend_client_cache
  | .frontend_client_cache => ._frontend_client_cache
  | .broker_client_cache => ._broker_client_cache
  | .workload_group_mgr => ._workload_group_manager
  | .workload_sched_policy_mgr => ._workload_sched_mgr
  | .runtime_query_statistics_mgr => ._runtime_query_statistics_mgr
  | .orphan_mem_tracker => ._orphan_mem_tracker
  | .brpc_iobuf_block_memory_tracker => ._brpc_iobuf_block_memory_tracker
  | .segcompaction_mem_tracker => ._segcompaction_mem_tracker
  | .stream_load_pipe_tracker => ._stream_load_pipe_tracker
  | .tablets_no_cache_mem_tracker => ._tablets_no_cache_mem_tracker
  | .rowsets_no_cache_mem_tracker => ._rowsets_no_cache_mem_tracker
  | .segments_no_cache_mem_tracker => ._segments_no_cache_mem_tracker
  | .point_query_executor_mem_tracker => ._point_query_executor_mem_tracker
  | .query_cache_mem_tracker => ._query_cache_mem_tracker
  | .block_compression_mem_tracker => ._block_compression_mem_tracker
  | .rowid_storage_reader_tracker => ._rowid_storage_reader_tracker
  | .subcolumns_tree_tracker => ._subcolumns_tree_tracker
  | .s3_file_buffer_tracker => ._s3_file_buffer_tracker
  | .parquet_meta_tracker => ._parquet_meta_tracker
  | .send_batch_thread_pool => ._send_batch_thread_pool
  | .buffered_reader_prefetch_thread_pool => ._buffered_reader_prefetch_thread_pool
  | .send_table_stats_thread_pool => ._send_table_stats_thread_pool
  | .s3_file_upload_thread_pool => ._s3_file_upload_thread_pool
  | .lazy_release_obj_pool => ._lazy_release_obj_pool
  | .s3_file_system_thread_pool => ._s3_file_system_thread_pool
  | .file_cache_factory => ._file_cache_factory
  | .user_function_cache => ._user_function_cache
  | .fragment_mgr => ._fragment_mgr
  | .result_cache => ._result_cache
  | .cluster_info => ._cluster_info
  | .load_path_mgr => ._load_path_mgr
  | .bfd_parser_ => ._bfd_parser_
  | .broker_mgr => ._broker_mgr
  | .brpc_internal_client_cache => ._internal_client_cache
  | .brpc_streaming_client_cache => ._streaming_client_cache
  | .brpc_function_client_cache => ._function_client_cache
  | .load_channel_mgr => ._load_channel_mgr
  | .load_stream_mgr => ._load_stream_mgr
  | .new_load_stream_mgr => ._new_load_stream_mgr
  | .small_file_mgr => ._small_file_mgr
  | .spill_stream_mgr => ._spill_stream_mgr
  | .group_commit_mgr => ._group_commit_mgr
  | .stream_load_executor => ._stream_load_executor
  | .routine_load_task_executor => ._routine_load_task_executor
  | .heartbeat_flags => ._heartbeat_flags
  | .scanner_scheduler => ._scanner_scheduler
  | .file_meta_cache => ._file_meta_cache
  | .memtable_memory_limiter => ._memtable_memory_limiter
  | .wal_mgr => ._wal_manager
  | .dns_cache => ._dns_cache
  | .write_cooldown_meta_executors => ._write_cooldown_meta_executors
  | .kerberos_ticket_mgr => ._kerberos_ticket_mgr
  | .hdfs_mgr => ._hdfs_mgr
  | .index_policy_mgr => ._index_policy_mgr
  | .load_stream_map_pool => ._load_stream_map_pool
  | .delta_writer_v2_pool => ._delta_writer_v2_pool
  | .get_tablet_schema_cache => ._tablet_schema_cache
  | .get_tablet_column_object_pool => ._tablet_column_object_pool
  | .schema_cache => ._schema_cache
  | .get_storage_page_cache => ._storage_page_cache
  | .segment_loader => ._segment_loader
  | .get_lookup_connection_cache => ._lookup_connection_cache
  | .get_row_cache => ._row_cache
  | .get_cache_manager => ._cache_manager
  | .get_id_manager => ._id_manager
  | .get_process_profile => ._process_profile
  | .get_heap_profiler => ._heap_profiler
  | .get_inverted_index_searcher_cache => ._inverted_index_searcher_cache
  | .get_inverted_index_query_cache => ._inverted_index_query_cache
  | .get_query_cache => ._query_cache
  | .runtime_filter_timer_queue => ._runtime_filter_timer_queue
  | .dict_factory => ._dict_factory
  | .pipeline_tracer_context => ._pipeline_tracer_ctx
  | .get_tmp_file_dirs => ._tmp_file_dirs
  | .file_cache_open_fd_cache => ._file_cache_open_fd_cache
  | .orc_memory_pool => ._orc_memory_pool
  | .arrow_memory_pool => ._arrow_memory_pool
  | .delete_bitmap_agg_cache => ._delete_bitmap_agg_cache

/-- Running a getter: the address held by its member (for `storage_engine()`,
the address of the object the returned reference denotes). -/
def Getter.run (g : Getter) (e : ExecEnv) : Handle := e.ptr g.field

/-- Source: `ClientCache<BackendServiceClient>* client_cache() { return _backend_client_cache; }` -/
def client_cache (e : ExecEnv) : Handle := e.ptr ._backend_client_cache

/-- Source: `ClientCache<FrontendServiceClient>* frontend_client_cache() { return _frontend_client_cache; }` -/
def frontend_client_cache (e : ExecEnv) : Handle := e.ptr ._frontend_client_cache

/-- Source: `ClientCache<TPaloBrokerServiceClient>* broker_client_cache() { return _broker_client_cache; }` -/
def broker_client_cache (e : ExecEnv) : Handle := e.ptr ._broker_client_cache

/-- Source: `std::shared_ptr<MemTrackerLimiter> orphan_mem_tracker() { return _orphan_mem_tracker; }` -/
def orphan_mem_tracker (e : ExecEnv) : Handle := e.ptr ._orphan_mem_tracker

/-- Source: `segment_v2::InvertedIndexQueryCache* get_inverted_index_query_cache()` -/
def get_inverted_index_query_cache (e : ExecEnv) : Handle :=
  e.ptr ._inverted_index_query_cache

/-- Source: `const std::vector<StorePath>& store_paths() const { return _store_paths; }` -/
def store_paths (e : ExecEnv) : List String := e._store_paths

/-! ## `get_client_cache<T>` (exec_env.h lines 187-191 and 530-542) -/

/-- The template argument of `get_client_cache<T>`: the three service types that
have an explicit specialisation, and any other type, identified by its name. -/
inductive ServiceType
  | BackendServiceClient
  | FrontendServiceClient
  | TPaloBrokerServiceClient
  | other (name : String)
  deriving DecidableEq, Repr

/-- The three explicit specialisations return their member; the primary
template returns `nullptr`. -/
def get_client_cache (T : ServiceType) (e : ExecEnv) : Handle :=
  match T with
  | .BackendServiceClient => e.ptr ._backend_client_cache
  | .FrontendServiceClient => e.ptr ._frontend_client_cache
  | .TPaloBrokerServiceClient => e.ptr ._broker_client_cache
  | .other _ => none

/-- The member an explicit specialisation of `get_client_cache<T>` reads; the
primary template reads none. -/
def ServiceType.member : ServiceType → Option Field
  | .BackendServiceClient => some ._backend_client_cache
  | .FrontendServiceClient => some ._frontend_client_cache
  | .TPaloBrokerServiceClient => some ._broker_client_cache
  | .other _ => none

/-! ## Setters defined in the header (lines 289-328 and 376) -/

/-- The member functions whose body in the header stores their argument into
one pointer-like member. -/
inductive Setter
  | set_tmp_file_dir | set_memtable_memory_limiter | set_cluster_info
  | set_cache_manager | set_process_profile | set_tablet_schema_cache
  | set_delete_bitmap_agg_cache | set_tablet_column_object_pool
  | set_storage_page_cache | set_segment_loader | set_routine_load_task_executor
  | set_orc_memory_pool | set_non_block_close_thread_pool | set_stream_mgr
  deriving DecidableEq, Repr

/-- The member each setter writes. -/
def Setter.field : Setter → Field
  | .set_tmp_file_dir => ._tmp_file_dirs
  | .set_memtable_memory_limiter => ._memtable_memory_limiter
  | .set_cluster_info => ._cluster_info
  | .set_cache_manager => ._cache_manager
  | .set_process_profile => ._process_profile
  | .set_tablet_schema_cache => ._tablet_schema_cache
  | .set_delete_bitmap_agg_cache => ._delete_bitmap_agg_cache
  | .set_tablet_column_object_pool => ._tablet_column_object_pool
  | .set_storage_page_cache => ._storage_page_cache
  | .set_segment_loader => ._segment_loader
  | .set_routine_load_task_executor => ._routine_load_task_executor
  | .set_orc_memory_pool => ._orc_memory_pool
  | .set_non_block_close_thread_pool => ._non_block_close_thread_pool
  | .set_stream_mgr => ._vstream_mgr

/-- Running a setter with argument `v`. -/
def Setter.run (f : Setter) (v : Handle) (e : ExecEnv) : ExecEnv := e.assign f.field v

/-- Source: `void set_stream_mgr(VDataStreamMgr* vstream_mgr) { _vstream_mgr = vstream_mgr; }` -/
def set_stream_mgr (v : Handle) (e : ExecEnv) : ExecEnv := e.assign ._vstream_mgr v

/-! ## Calls and their execution -/

/-- The only `ExecEnv*` a program can obtain: the constructor is private, so the
one object is the function-local static, and the pointer is its address. -/
inductive ExecEnvPtr
  | s_exec_env
  deriving DecidableEq, Repr

/-- What a call returns. -/
inductive Ret
  | void
  | bool (b : Bool)
  | handle (h : Handle)
  | paths (l : List String)
  | pointer (p : ExecEnvPtr)
  deriving DecidableEq, Repr

/-- The static member functions with a body in the header, `GetInstance` apart. -/
inductive StaticCall
  | ready | tracking_memory | get_is_upgrading
  | set_is_upgrading
  | set_tracking_memory (b : Bool)
  deriving DecidableEq, Repr

/-- The non-static member functions with a body in the header. -/
inductive MemberCall
  | getter (g : Getter)
  | store_paths
  | get_client_cache (T : ServiceType)
  | set_ready
  | set_not_ready
  | setter (f : Setter) (v : Handle)
  deriving DecidableEq, Repr

/-- A static member function runs on the class statics alone. -/
def StaticCall.exec (c : StaticCall) (s : Statics) : Ret × Statics :=
  match c with
  | .ready => (.bool (doris.ready s), s)
  | .tracking_memory => (.bool (doris.tracking_memory s), s)
  | .get_is_upgrading => (.bool (doris.get_is_upgrading s), s)
  | .set_is_upgrading => (.void, doris.set_is_upgrading s)
  | .set_tracking_memory b => (.void, doris.set_tracking_memory b s)

/-- A non-static member function runs on the class statics and on `*this`. -/
def MemberCall.exec (c : MemberCall) (s : Statics) (e : ExecEnv) : Ret × Statics × ExecEnv :=
  match c with
  | .getter g => (.handle (g.run e), s, e)
  | .store_paths => (.paths (doris.store_paths e), s, e)
  | .get_client_cache T => (.handle (doris.get_client_cache T e), s, e)
  | .set_ready => (.void, doris.set_ready s, e)
  | .set_not_ready => (.void, doris.set_not_ready s, e)
  | .setter f v => (.void, s, f.run v e)

/-- The state of the process as far as the header is concerned: the class
statics and the function-local `static ExecEnv s_exec_env` of `GetInstance`,
which does not exist (`none`) until control first passes its declaration. -/
structure Process where
  statics : Statics
  s_exec_env : Option ExecEnv

/-- The process at start. -/
def Process.initial : Process := { statics := Statics.initial, s_exec_env := none }

/-- Source: `static ExecEnv* GetInstance() { static ExecEnv s_exec_env; return &s_exec_env; }`.
The constructor `ExecEnv::ExecEnv()` is defined in the .cpp file; the object it
leaves is the parameter `ctor`. -/
def GetInstance (ctor : ExecEnv) (p : Process) : ExecEnvPtr × Process :=
  match p.s_exec_env with
  | some _ => (.s_exec_env, p)
  | none => (.s_exec_env, { p with s_exec_env := some ctor })

/-- The object a pointer returned by `GetInstance` denotes in a process state. -/
def Process.deref (p : Process) : ExecEnvPtr → Option ExecEnv
  | .s_exec_env => p.s_exec_env

/-- An operation of the header as a program performs it: `GetInstance()` itself,
a static call `ExecEnv::f()`, or a member call `ExecEnv::GetInstance()->f()`. -/
inductive Call
  | GetInstance
  | static (c : StaticCall)
  | member (c : MemberCall)
  deriving DecidableEq, Repr

/-- Execution of one operation on the process. -/
def Call.exec (ctor : ExecEnv) (c : Call) (p : Process) : Ret × Process :=
  match c with
  | .GetInstance =>
      let r := doris.GetInstance ctor p
      (.pointer r.1, r.2)
  | .static c =>
      let r := c.exec p.statics
      (r.1, { p with statics := r.2 })
  | .member c =>
      let q := (doris.GetInstance ctor p).2
      match q.s_exec_env with
      | some e =>
          let r := c.exec q.statics e
          (r.1, { statics := r.2.1, s_exec_env := some r.2.2 })
      | none => (.void, q)

/-- Execution of a sequence of operations, first to last. -/
def run (ctor : ExecEnv) (cs : List Call) (p : Process) : Process :=
  cs.foldl (fun q c => (c.exec ctor q).2) p

/-- Source: `inline InvertedIndexQueryCache* GetInvertedIndexQueryCache()
{ return ExecEnv::GetInstance()->get_inverted_index_query_cache(); }` -/
def GetInvertedIndexQueryCache (ctor : ExecEnv) (p : Process) : Ret × Process :=
  Call.exec ctor (.member (.getter .get_inverted_index_query_cache)) p

/-- The value an operation writes to the readiness flag when it is
`set_ready()` (true) or `set_not_ready()` (false). -/
def readyWrite : Call → Option Bool
  | .member .set_ready => some true
  | .member .set_not_ready => some false
  | _ => none

/-- The value the last `set_ready()` or `set_not_ready()` of a sequence wrote,
if the sequence has one. -/
def lastReadyWrite : List Call → Option Bool
  | [] => none
  | c :: cs =>
      match lastReadyWrite cs with
      | some b => some b
      | none => readyWrite c

/-- Two handles denote two distinct pool instances: neither is null and the
addresses differ. -/
def distinctPools (a b : Handle) : Bool :=
  match a, b with
  | some x, some y => x != y
  | _, _ => false

/-- An `ExecEnv` whose three client-cache members hold the pools at addresses
1, 2 and 3. -/
def populatedEnv : ExecEnv :=
  ((ExecEnv.fresh.assign ._backend_client_cache (some 1)).assign
    ._frontend_client_cache (some 2)).assign ._broker_client_cache (some 3)

/-! ## Teardown -/

/-- The thread pools the registry owns (exec_env.h lines 440-451). -/
def threadPoolFields : List Field :=
  [._send_batch_thread_pool, ._buffered_reader_prefetch_thread_pool,
   ._send_table_stats_thread_pool, ._s3_file_upload_thread_pool,
   ._lazy_release_obj_pool, ._non_block_close_thread_pool,
   ._s3_file_system_thread_pool]

/-- The caches the registry owns, client caches included. -/
def cacheFields : List Field :=
  [._user_function_cache, ._backend_client_cache, ._frontend_client_cache,
   ._broker_client_cache, ._result_cache, ._internal_client_cache,
   ._streaming_client_cache, ._function_client_cache, ._file_meta_cache,
   ._dns_cache, ._tablet_schema_cache, ._schema_cache, ._storage_page_cache,
   ._lookup_connection_cache, ._row_cache, ._inverted_index_searcher_cache,
   ._inverted_index_query_cache, ._query_cache, ._file_cache_open_fd_cache,
   ._delete_bitmap_agg_cache]

/-- The memory trackers the registry owns (exec_env.h lines 417-438). -/
def memTrackerFields : List Field :=
  [._orphan_mem_tracker, ._brpc_iobuf_block_memory_tracker,
   ._segcompaction_mem_tracker, ._stream_load_pipe_tracker,
   ._tablets_no_cache_mem_tracker, ._rowsets_no_cache_mem_tracker,
   ._segments_no_cache_mem_tracker, ._point_query_executor_mem_tracker,
   ._block_compression_mem_tracker, ._query_cache_mem_tracker,
   ._rowid_storage_reader_tracker, ._subcolumns_tree_tracker,
   ._s3_file_buffer_tracker, ._parquet_meta_tracker]

/-- The members `destroy()` walks, in the order of the specification: thread
pools, caches, the storage engine, memory trackers last. -/
def destroyOrder : List Field :=
  threadPoolFields ++ cacheFields ++ [._storage_engine] ++ memTrackerFields

/-- Modelled from the spec: `ExecEnv::destroy()` is declared in exec_env.h
(line 153) and defined in exec_env.cpp, which is not among the sources. The
specification (section 4.1) has it stop the thread pools, release the caches,
release the storage-engine handle and release the memory trackers last, a second
call being a no-op that releases nothing. The model follows those words: each
member of `destroyOrder` that still holds an object has that object released
(its address is appended to the returned log, in order) and is left null; a
member that is already null contributes nothing. The groups of
`mem_tracker_limiter_pool` only record the trackers in use and are left as they
are. -/
def destroy (e : ExecEnv) : List Nat × ExecEnv :=
  (destroyOrder.filterMap e.ptr,
   { e with ptr := fun f => if f ∈ destroyOrder then none else e.ptr f })

/-! ## Memory tracker hierarchy -/

/-- Modelled from the spec: class `MemTrackerLimiter` is only forward-declared
in exec_env.h (line 91). Section 3 of the specification gives a tracker a label,
a current consumption counter and an optional limit; `id` is its identity. -/
structure MemTrackerLimiter where
  id : Nat
  label : String
  consumption : Int
  limit : Option Int
  deriving DecidableEq, Repr

/-- Modelled from the spec: `struct TrackerLimiterGroup` is only
forward-declared in exec_env.h (line 93); a group is the list of trackers of one
shard (its lock is not modelled). -/
abbrev TrackerLimiterGroup := List MemTrackerLimiter

/-- Modelled from the spec: the memory-accounting state behind
`ExecEnv::mem_tracker_limiter_pool` and `ExecEnv::_orphan_mem_tracker`, whose
code (`MemTrackerLimiter`, the allocation hook) is not among the sources. It
holds the shards, the orphan tracker, and the consumption of the process
tracker, to which, by the comment at exec_env.h lines 412-414, every
consumption is passed through a limiter tracker or through the orphan. -/
structure MemTrackerHierarchy where
  mem_tracker_limiter_pool : List TrackerLimiterGroup
  orphan_mem_tracker : MemTrackerLimiter
  process_consumption : Int
  deriving DecidableEq, Repr

/-- Modelled from the spec: the hierarchy as init step (1) leaves it, `shards`
empty groups and an orphan tracker, nothing consumed yet. -/
def MemTrackerHierarchy.init (shards : Nat) : MemTrackerHierarchy :=
  { mem_tracker_limiter_pool := List.replicate shards [],
    orphan_mem_tracker := { id := 0, label := "Orphan", consumption := 0, limit := none },
    process_consumption := 0 }

/-- The consumption of the trackers of one group. -/
def groupConsumption (g : TrackerLimiterGroup) : Int :=
  (g.map (fun t => t.consumption)).sum

/-- The consumption of all limiter trackers, over all groups. -/
def limiterConsumption (h : MemTrackerHierarchy) : Int :=
  (h.mem_tracker_limiter_pool.map groupConsumption).sum

/-- Adds `delta` to the counter of the first tracker of the group with identity
`id`; `none` when the group has no such tracker. -/
def chargeGroup (id : Nat) (delta : Int) : TrackerLimiterGroup → Option TrackerLimiterGroup
  | [] => none
  | t :: ts =>
      if t.id = id then some ({ t with consumption := t.consumption + delta } :: ts)
      else (chargeGroup id delta ts).map (fun r => t :: r)

/-- Takes the first tracker with identity `id` out of the group, returning it
with the rest; `none` when the group has no such tracker. -/
def takeFromGroup (id : Nat) : TrackerLimiterGroup → Option (MemTrackerLimiter × TrackerLimiterGroup)
  | [] => none
  | t :: ts =>
      if t.id = id then some (t, ts)
      else (takeFromGroup id ts).map (fun r => (r.1, t :: r.2))

/-- The shard of a tracker: a deterministic hash of its identity, modulo the
number of shards (hash function and shard count are tunables). -/
def shardOf (hash : Nat → Nat) (h : MemTrackerHierarchy) (id : Nat) : Nat :=
  hash id % h.mem_tracker_limiter_pool.length

/-- Whether a tracker is over its limit. -/
def MemTrackerLimiter.limit_exceeded (t : MemTrackerLimiter) : Bool :=
  match t.limit with
  | some l => decide (l < t.consumption)
  | none => false

/-- Modelled from the spec: registration of a new tracker (section 4.2): it
enters the shard of its identity with nothing consumed. -/
def MemTrackerHierarchy.register (hash : Nat → Nat) (id : Nat) (label : String)
    (limit : Option Int) (h : MemTrackerHierarchy) : MemTrackerHierarchy :=
  let i := shardOf hash h id
  match h.mem_tracker_limiter_pool[i]? with
  | some g =>
      let t : MemTrackerLimiter := { id := id, label := label, consumption := 0, limit := limit }
      { h with mem_tracker_limiter_pool := h.mem_tracker_limiter_pool.set i (t :: g) }
  | none => h

/-- Modelled from the spec: `consume(tracker, delta)` (section 4.2), taken as
one atomic step. The consumption is charged to the attached tracker when there
is one and it is registered, and to the orphan tracker otherwise (orphan
policy); either way it is passed on to the process tracker. The accounting never
fails; the returned flag reports that the charged tracker is over its limit. -/
def MemTrackerHierarchy.consume (hash : Nat → Nat) (tracker : Option Nat) (delta : Int)
    (h : MemTrackerHierarchy) : Bool × MemTrackerHierarchy :=
  let toOrphan : Bool × MemTrackerHierarchy :=
    let o : MemTrackerLimiter :=
      { h.orphan_mem_tracker with consumption := h.orphan_mem_tracker.consumption + delta }
    (o.limit_exceeded,
     { h with orphan_mem_tracker := o, process_consumption := h.process_consumption + delta })
  match tracker with
  | none => toOrphan
  | some id =>
      let i := shardOf hash h id
      match h.mem_tracker_limiter_pool[i]? with
      | none => toOrphan
      | some g =>
          match chargeGroup id delta g with
          | none => toOrphan
          | some g1 =>
              ((g1.find? (fun t => t.id = id)).any MemTrackerLimiter.limit_exceeded,
               { h with mem_tracker_limiter_pool := h.mem_tracker_limiter_pool.set i g1,
                        process_consumption := h.process_consumption + delta })

/-- Modelled from the spec: `release(tracker, delta)` returns `delta`
previously consumed: a consumption of `-delta`. -/
def MemTrackerHierarchy.release (hash : Nat → Nat) (tracker : Option Nat) (delta : Int)
    (h : MemTrackerHierarchy) : MemTrackerHierarchy :=
  (h.consume hash tracker (-delta)).2

/-- Modelled from the spec: removal of a tracker from its shard (section 4.2).
What the removed tracker still holds is from then on attributed to no explicit
tracker, so the orphan tracker absorbs it (section 3, Orphan Tracker). -/
def MemTrackerHierarchy.remove (hash : Nat → Nat) (id : Nat)
    (h : MemTrackerHierarchy) : MemTrackerHierarchy :=
  let i := shardOf hash h id
  match h.mem_tracker_limiter_pool[i]? with
  | none => h
  | some g =>
      match takeFromGroup id g with
      | none => h
      | some (t, g1) =>
          let o : MemTrackerLimiter :=
            { h.orphan_mem_tracker with
              consumption := h.orphan_mem_tracker.consumption + t.consumption }
          { h with mem_tracker_limiter_pool := h.mem_tracker_limiter_pool.set i g1,
                   orphan_mem_tracker := o }

/-- The operations on the hierarchy between init completion and destroy start. -/
inductive TrackerOp
  | register (id : Nat) (label : String) (limit : Option Int)
  | consume (tracker : Option Nat) (delta : Int)
  | release (tracker : Option Nat) (delta : Int)
  | remove (id : Nat)
  deriving DecidableEq, Repr

/-- One operation on the hierarchy. -/
def TrackerOp.apply (hash : Nat → Nat) (op : TrackerOp) (h : MemTrackerHierarchy) :
    MemTrackerHierarchy :=
  match op with
  | .register id label limit => h.register hash id label limit
  | .consume tracker delta => (h.consume hash tracker delta).2
  | .release tracker delta => h.release hash tracker delta
  | .remove id => h.remove hash id

/-- A sequence of operations on the hierarchy, first to last; every prefix is an
observation point. -/
def MemTrackerHierarchy.after (hash : Nat → Nat) (ops : List TrackerOp)
    (h : MemTrackerHierarchy) : MemTrackerHierarchy :=
  ops.foldl (fun k op => op.apply hash k) h

/-- The accounting identity: limiter trackers plus orphan equal the process
tracker. -/
def Accounted (h : MemTrackerHierarchy) : Prop :=
  limiterConsumption h + h.orphan_mem_tracker.consumption = h.process_consumption

namespace vectorized

/-! ## URL substring helpers (functions_url.h) -/

/-- The type `using Pos = const char*;`, measured in bytes from the first byte of the
buffer handed to the Extractor. -/
abbrev Pos := Nat

/-- The template parameter `Extractor`:
`execute(const char* data, size_t size, Pos& res_data, size_t& res_size)` is
given the `size` bytes at `data` and reports the matched part as the position
of its first byte (a `Pos`) and its length; `get_reserve_length_for_element()` is a size hint. -/
structure Extractor where
  execute : List Char → Nat → Nat × Nat
  get_reserve_length_for_element : Nat

/-- The character array `std::string::data()` points to: the `size()`
characters followed by the terminating null character. -/
def c_str (data : List Char) : List Char := data ++ [Char.ofNat 0]

/-- Reads `n` bytes of the array `mem` from position `p` on, one by one; `none`
when a byte read lies outside the array (undefined behaviour). -/
def readBytes (mem : List Char) (p : Pos) : Nat → Option (List Char)
  | 0 => some []
  | n + 1 =>
      match mem[p]? with
      | none => none
      | some c => (readBytes mem (p + 1) n).map (fun r => c :: r)

/-- The bytes of the pointer range `[first, last)` of the array `mem`; `none`
when it is not a valid range of the array. -/
def readRange (mem : List Char) (first last : Pos) : Option (List Char) :=
  if first ≤ last then readBytes mem first (last - first) else none

/-- Library function `std::string::assign(const char* s, size_t n)`: the string becomes the `n`
characters read, whatever it held before. -/
def string_assign (_old : List Char) (s : List Char) : List Char := s

/-- Library function `std::string::append(first, last)`: the characters read are added at the
end of the string. -/
def string_append (old : List Char) (s : List Char) : List Char := old ++ s

/-- Library function `std::string::reserve(n)`: changes the capacity only, never the contents. -/
def string_reserve (old : List Char) (_n : Nat) : List Char := old

/-- Function `ExtractSubstringImpl<Extractor>::constant(data, res_data)`
(functions_url.h lines 102-107): the value of `res_data` on return. -/
def ExtractSubstringImpl.constant (E : Extractor) (data : List Char) (res_data : List Char) :
    Option (List Char) :=
  let m := E.execute data data.length
  let start := m.1
  let length := m.2
  (readBytes (c_str data) start length).map (string_assign res_data)

/-- Function `CutSubstringImpl<Extractor>::constant(data, res_data)`
(functions_url.h lines 145-152): the value of `res_data` on return. The
argument of `reserve` is `data.size() - length` in `size_t`; when `length`
exceeds `data.size()` the second `append` has no valid range and the result is
`none` whatever `reserve` does. -/
def CutSubstringImpl.constant (E : Extractor) (data : List Char) (res_data : List Char) :
    Option (List Char) :=
  let m := E.execute data data.length
  let start := m.1
  let length := m.2
  let r0 := string_reserve res_data ((data.length + 2 ^ 64 - length) % 2 ^ 64)
  match readRange (c_str data) 0 start with
  | none => none
  | some a =>
      let r1 := string_append r0 a
      match readRange (c_str data) (start + length) data.length with
      | none => none
      | some b => some (string_append r1 b)

/-! ### String columns -/

/-- Modelled from the spec: `Status` (common/status.h) is not among the sources;
`OK` is the success value, anything else carries a message. -/
inductive Status
  | OK
  | error (msg : String)
  deriving DecidableEq, Repr

/-- The values the code leaves unspecified: the contents of the elements a
`resize` adds (it does not initialise them), for the bytes of `res_data` and for
the entries of `res_offsets`, by position; and, for each row, the bytes the
copy of that row writes past the end of its destination. -/
structure Unspecified where
  byte : Nat → Char
  offset : Nat → Nat
  spill : Nat → List Char

/-- Modelled from the spec: `PODArray::resize(n)` (vec/common/pod_array.h) is
not among the sources. The array keeps its first `n` elements; elements added
are not initialised, their values are those `junk` gives for their positions. -/
def resize {α : Type} (junk : Nat → α) (xs : List α) (n : Nat) : List α :=
  xs.take n ++ (List.range (n - xs.length)).map (fun k => junk (xs.length + k))

/-- Modelled from the spec: `PODArray::reserve(n)` changes the capacity only,
never the elements. -/
def reserve {α : Type} (xs : List α) (_n : Nat) : List α := xs

/-- Stores bytes one after the other from element `off` on. A byte stored past
the last element of the array lands in the padding the array keeps behind its
elements and is not part of its value. -/
def writeBytes (buf : List Char) (off : Nat) : List Char → List Char
  | [] => buf
  | b :: bs => writeBytes (buf.set off b) (off + 1) bs

/-- Modelled from the spec: `memcpy_small_allow_read_write_overflow15(dst, src, n)`
(vec/common/memcpy_small.h) is not among the sources. It copies the `n` bytes
`src` to `&dst[off]`; copying nothing when `n` is 0 and otherwise in blocks, it
may store further bytes `spill` (at most 15) right behind them. -/
def memcpy_small_allow_read_write_overflow15 (dst : List Char) (off : Nat)
    (src spill : List Char) : List Char :=
  if src.length = 0 then dst else writeBytes dst off (src ++ spill)

/-- The loop of `ExtractSubstringImpl<Extractor>::vector` (functions_url.h lines
89-98) from row `i` on, `rest` being `offsets[i..]`. `ColumnString::Offset` is
an unsigned integer of `offsetBits` bits (its declaration is not among the
sources); `size_t` has 64 bits. The result is `none` when the Extractor is
handed, or the copy reads, bytes outside `data`. -/
def ExtractSubstringImpl.vectorLoop (E : Extractor) (offsetBits : Nat) (u : Unspecified)
    (data : List Char) :
    Nat → List Nat → Nat → Nat → List Char → List Nat → Option (List Char × List Nat)
  | _, [], _, _, res_data, res_offsets => some (res_data, res_offsets)
  | i, off :: rest, prev_offset, res_offset, res_data, res_offsets =>
      let size_i := (off + 2 ^ 64 - prev_offset) % 2 ^ 64
      match readBytes data prev_offset size_i with
      | none => none
      | some row =>
          let m := E.execute row size_i
          let start := prev_offset + m.1
          let length := m.2
          let res_data1 := resize u.byte res_data (res_data.length + length)
          match readBytes data start length with
          | none => none
          | some matched =>
              let res_data2 :=
                memcpy_small_allow_read_write_overflow15 res_data1 res_offset matched (u.spill i)
              let res_offset1 := (res_offset + length) % 2 ^ 64
              let res_offsets1 := res_offsets.set i (res_offset1 % 2 ^ offsetBits)
              ExtractSubstringImpl.vectorLoop E offsetBits u data (i + 1) rest off res_offset1
                res_data2 res_offsets1

/-- Function `ExtractSubstringImpl<Extractor>::vector(data, offsets, res_data,
res_offsets)` (functions_url.h lines 76-100): the status returned and the
values of `res_data` and `res_offsets` on return. -/
def ExtractSubstringImpl.vector (E : Extractor) (offsetBits : Nat) (u : Unspecified)
    (data : List Char) (offsets : List Nat) (res_data : List Char) (res_offsets : List Nat) :
    Option (Status × List Char × List Nat) :=
  let size := offsets.length
  let res_offsets1 := resize u.offset res_offsets size
  let res_data1 := reserve res_data (size * E.get_reserve_length_for_element)
  match ExtractSubstringImpl.vectorLoop E offsetBits u data 0 offsets 0 0 res_data1
      res_offsets1 with
  | none => none
  | some r => some (Status.OK, r.1, r.2)

/-- The rows of a string column from a given previous offset on: each row is
the bytes of `data` from the previous offset up to its own offset. -/
def rowsFrom (data : List Char) : Nat → List Nat → List (List Char)
  | _, [] => []
  | prev, off :: rest => (data.drop prev).take (off - prev) :: rowsFrom data off rest

/-- Modelled from the spec: `ColumnString` (vec/columns/column_string.h) is not
among the sources. Row `i` of a string column is the bytes of `data` from
`offsets[i - 1]` (0 for the first row) up to `offsets[i]`. -/
def rows (data : List Char) (offsets : List Nat) : List (List Char) :=
  rowsFrom data 0 offsets

/-- The offsets of a column whose rows have the given lengths, the rows before
them taking `start` bytes. -/
def offsetsOf (start : Nat) : List Nat → List Nat
  | [] => []
  | n :: ns => (start + n) :: offsetsOf (start + n) ns

/-- The part of a buffer the Extractor reports: `length` bytes from `start`. -/
def extracted (E : Extractor) (row : List Char) : List Char :=
  (row.drop (E.execute row row.length).1).take (E.execute row row.length).2

/-- The match the Extractor reports in a buffer lies inside the buffer. -/
def inBounds (E : Extractor) (row : List Char) : Prop :=
  (E.execute row row.length).1 + (E.execute row row.length).2 ≤ row.length

/-- An Extractor that matches the first byte of a non-empty buffer and nothing
in an empty one. -/
def firstByte : Extractor :=
  { execute := fun _ size => (0, min size 1), get_reserve_length_for_element := 1 }

/-- Unspecified values, fixed for an example. -/
def someUnspecified : Unspecified :=
  { byte := fun _ => '?', offset := fun _ => 77, spill := fun _ => ['#', '#', '#'] }

/-- An Extractor that finds nothing: it reports the empty match at the start of
the buffer. -/
def findNothing : Extractor :=
  { execute := fun _ _ => (0, 0), get_reserve_length_for_element := 1 }

/-- An Extractor that matches everything but the first and the last byte. -/
def innerPart : Extractor :=
  { execute := fun _ size => (1, size - 2), get_reserve_length_for_element := 1 }

end vectorized

end doris

/-! # Theorems -/

namespace doris

/-! ## Helper lemmas: the statics and the singleton under the header calls -/

theorem GetInstance_statics (ctor : ExecEnv) (p : Process) :
    (GetInstance ctor p).2.statics = p.statics := by
  unfold GetInstance
  cases h : p.s_exec_env <;> simp

theorem GetInstance_s_exec_env (ctor : ExecEnv) (p : Process) :
    (GetInstance ctor p).2.s_exec_env = some (p.s_exec_env.getD ctor) := by
  unfold GetInstance
  cases h : p.s_exec_env <;> simp [h]

theorem GetInstance_of_constructed (ctor : ExecEnv) (p : Process)
    (h : p.s_exec_env.isSome = true) : GetInstance ctor p = (ExecEnvPtr.s_exec_env, p) := by
  unfold GetInstance
  cases hp : p.s_exec_env with
  | none => simp [hp] at h
  | some e => simp

theorem exec_ready_static (c : StaticCall) (s : Statics) :
    ready (c.exec s).2 = ready s := by
  cases c <;> rfl

theorem exec_ready (ctor : ExecEnv) (c : Call) (p : Process) :
    ready (c.exec ctor p).2.statics = (readyWrite c).getD (ready p.statics) := by
  cases c with
  | GetInstance => simp [Call.exec, GetInstance_statics, readyWrite]
  | static c => simp [Call.exec, exec_ready_static, readyWrite]
  | member c =>
      have hs := GetInstance_s_exec_env ctor p
      have ht := GetInstance_statics ctor p
      simp only [Call.exec, hs, ht]
      cases c <;> rfl

theorem Call.exec_constructed (ctor : ExecEnv) (c : Call) (p : Process)
    (h : p.s_exec_env.isSome = true) : (c.exec ctor p).2.s_exec_env.isSome = true := by
  cases c with
  | GetInstance => simp [Call.exec, GetInstance_s_exec_env]
  | static c => simpa [Call.exec] using h
  | member c =>
      have hs := GetInstance_s_exec_env ctor p
      simp [Call.exec, hs]

theorem run_constructed (ctor : ExecEnv) (cs : List Call) (p : Process)
    (h : p.s_exec_env.isSome = true) : (run ctor cs p).s_exec_env.isSome = true := by
  induction cs generalizing p with
  | nil => simpa [run] using h
  | cons c cs ih =>
      have := ih (c.exec ctor p).2 (Call.exec_constructed ctor c p h)
      simpa [run] using this

theorem run_cons (ctor : ExecEnv) (c : Call) (cs : List Call) (p : Process) :
    run ctor (c :: cs) p = run ctor cs (c.exec ctor p).2 := by
  simp [run]

theorem run_ready (ctor : ExecEnv) (cs : List Call) (p : Process) :
    ready (run ctor cs p).statics = (lastReadyWrite cs).getD (ready p.statics) := by
  induction cs generalizing p with
  | nil => simp [run, lastReadyWrite]
  | cons c cs ih =>
      rw [run_cons, ih, exec_ready]
      simp only [lastReadyWrite]
      cases hl : lastReadyWrite cs with
      | some b => simp
      | none => simp

/-! ## The readiness and upgrading flags -/

/-- C1: `ready()` is false in the initial process state, and after any sequence
of the operations defined in exec_env.h it returns what the most recent
`set_ready()` or `set_not_ready()` wrote, or its previous value (false from the
initial state) when the sequence has neither: nothing else writes the flag. -/
theorem ready_is_last_ready_write (ctor : ExecEnv) (cs : List Call) :
    ready Process.initial.statics = false ∧
    ready (run ctor cs Process.initial).statics = (lastReadyWrite cs).getD false ∧
    ∀ p : Process, ready (run ctor cs p).statics = (lastReadyWrite cs).getD (ready p.statics) :=
  ⟨rfl, run_ready ctor cs Process.initial, fun p => run_ready ctor cs p⟩

/-- C5: `set_is_upgrading()` makes `get_is_upgrading()` true and leaves
`ready()` and `tracking_memory()` as they were; `set_ready()`, `set_not_ready()`
and `set_tracking_memory(b)` leave `get_is_upgrading()` as it was. -/
theorem upgrading_flag_independent (s : Statics) (b : Bool) :
    get_is_upgrading (set_is_upgrading s) = true ∧
    ready (set_is_upgrading s) = ready s ∧
    tracking_memory (set_is_upgrading s) = tracking_memory s ∧
    get_is_upgrading (set_ready s) = get_is_upgrading s ∧
    get_is_upgrading (set_not_ready s) = get_is_upgrading s ∧
    get_is_upgrading (set_tracking_memory b s) = get_is_upgrading s :=
  ⟨rfl, rfl, rfl, rfl, rfl, rfl⟩

/-! ## Client caches -/

/-- C2, as stated, fails: on an `ExecEnv` as its default member initialisers
leave it, `get_client_cache<BackendServiceClient>()` and
`get_client_cache<FrontendServiceClient>()` both return `nullptr`, which are not
two distinct pool instances. -/
theorem get_client_cache_fresh_both_null :
    get_client_cache .BackendServiceClient ExecEnv.fresh = none ∧
    get_client_cache .FrontendServiceClient ExecEnv.fresh = none ∧
    distinctPools (get_client_cache .BackendServiceClient ExecEnv.fresh)
      (get_client_cache .FrontendServiceClient ExecEnv.fresh) = false :=
  ⟨rfl, rfl, rfl⟩

/-- C2, amended: for two distinct service types among the three registered
ones, `get_client_cache<A>()` and `get_client_cache<B>()` read two different
members (a write to the member of `A` is returned by `get_client_cache<A>()` and
not seen by `get_client_cache<B>()`), and they return two distinct pool
instances whenever the three members hold three distinct non-null pools. -/
theorem get_client_cache_distinct (e : ExecEnv) (A B : ServiceType)
    (hA : A.member.isSome = true) (hB : B.member.isSome = true) (hAB : A ≠ B)
    (h1 : distinctPools (client_cache e) (frontend_client_cache e) = true)
    (h2 : distinctPools (client_cache e) (broker_client_cache e) = true)
    (h3 : distinctPools (frontend_client_cache e) (broker_client_cache e) = true) :
    distinctPools (get_client_cache A e) (get_client_cache B e) = true ∧
    A.member ≠ B.member ∧
    ∀ (f : Field) (v : Handle), A.member = some f →
      get_client_cache A (e.assign f v) = v ∧
      get_client_cache B (e.assign f v) = get_client_cache B e := by
  have sym : ∀ a b : Handle, distinctPools a b = true → distinctPools b a = true := by
    intro a b h
    cases a <;> cases b <;> simp_all [distinctPools]
    exact fun h2 => h h2.symm
  have s1 := sym _ _ h1
  have s2 := sym _ _ h2
  have s3 := sym _ _ h3
  simp only [client_cache, frontend_client_cache, broker_client_cache] at h1 h2 h3 s1 s2 s3
  cases A <;> cases B <;>
    simp_all [ServiceType.member, get_client_cache, ExecEnv.assign] <;>
    (intro f v hf hg; subst hf; cases hg)

/-- Witness for C2 amended: the backend and broker caches of `populatedEnv`. -/
theorem get_client_cache_distinct_witness :
    ServiceType.BackendServiceClient ≠ ServiceType.TPaloBrokerServiceClient ∧
    distinctPools (client_cache populatedEnv) (frontend_client_cache populatedEnv) = true ∧
    distinctPools (client_cache populatedEnv) (broker_client_cache populatedEnv) = true ∧
    distinctPools (frontend_client_cache populatedEnv) (broker_client_cache populatedEnv) = true ∧
    distinctPools (get_client_cache .BackendServiceClient populatedEnv)
      (get_client_cache .TPaloBrokerServiceClient populatedEnv) = true :=
  ⟨by decide, rfl, rfl, rfl,
   (get_client_cache_distinct populatedEnv .BackendServiceClient .TPaloBrokerServiceClient
      rfl rfl (by decide) rfl rfl rfl).1⟩

/-- C3: for each registered service type, `get_client_cache<T>()` returns the
handle held by the member of that type, the one its named accessor returns, and
leaves the statics and the object as they were; so a second call right after
returns the identical handle. -/
theorem get_client_cache_stable (s : Statics) (e : ExecEnv) :
    MemberCall.exec (.get_client_cache .BackendServiceClient) s e
      = (.handle (client_cache e), s, e) ∧
    MemberCall.exec (.get_client_cache .FrontendServiceClient) s e
      = (.handle (frontend_client_cache e), s, e) ∧
    MemberCall.exec (.get_client_cache .TPaloBrokerServiceClient) s e
      = (.handle (broker_client_cache e), s, e) ∧
    ∀ T : ServiceType,
      (MemberCall.exec (.get_client_cache T) s e).2 = (s, e) ∧
      (MemberCall.exec (.get_client_cache T)
          (MemberCall.exec (.get_client_cache T) s e).2.1
          (MemberCall.exec (.get_client_cache T) s e).2.2).1
        = (MemberCall.exec (.get_client_cache T) s e).1 :=
  ⟨rfl, rfl, rfl, fun _ => ⟨rfl, rfl⟩⟩

/-- C4: for a service type that is none of the three registered ones,
`get_client_cache<T>()` returns the null handle in every state and changes
nothing; the call is total. -/
theorem get_client_cache_unregistered (T : ServiceType) (s : Statics) (e : ExecEnv)
    (hb : T ≠ .BackendServiceClient) (hf : T ≠ .FrontendServiceClient)
    (hp : T ≠ .TPaloBrokerServiceClient) :
    get_client_cache T e = none ∧
    MemberCall.exec (.get_client_cache T) s e = (.handle none, s, e) := by
  cases T with
  | BackendServiceClient => exact absurd rfl hb
  | FrontendServiceClient => exact absurd rfl hf
  | TPaloBrokerServiceClient => exact absurd rfl hp
  | other name => exact ⟨rfl, rfl⟩

/-- Witness for C4: `PBackendService_Stub` is not a registered client type, also
on an `ExecEnv` whose registered caches are populated. -/
theorem get_client_cache_unregistered_witness :
    get_client_cache (.other "PBackendService_Stub") populatedEnv = none ∧
    MemberCall.exec (.get_client_cache (.other "PBackendService_Stub")) Statics.initial
        populatedEnv = (.handle none, Statics.initial, populatedEnv) :=
  get_client_cache_unregistered (.other "PBackendService_Stub") Statics.initial populatedEnv
    (by simp) (by simp) (by simp)

/-! ## The singleton -/

/-- C8: `GetInstance()` returns the same pointer on every call; the object it
points to exists after the first call (constructed then, unless it existed
already), and a call made after any later operations of the header finds the
object constructed and leaves the whole process state, the object included, as
it was. -/
theorem GetInstance_same_instance (ctor : ExecEnv) (p : Process) (cs : List Call) :
    (GetInstance ctor (run ctor cs (GetInstance ctor p).2)).1 = (GetInstance ctor p).1 ∧
    (GetInstance ctor p).2.deref (GetInstance ctor p).1 = some (p.s_exec_env.getD ctor) ∧
    (GetInstance ctor (GetInstance ctor p).2).2 = (GetInstance ctor p).2 ∧
    (GetInstance ctor (run ctor cs (GetInstance ctor p).2)).2
      = run ctor cs (GetInstance ctor p).2 := by
  have hc : (GetInstance ctor p).2.s_exec_env.isSome = true := by
    simp [GetInstance_s_exec_env]
  have hr := run_constructed ctor cs (GetInstance ctor p).2 hc
  refine ⟨?_, ?_, ?_, ?_⟩
  · cases (GetInstance ctor (run ctor cs (GetInstance ctor p).2)).1
    cases (GetInstance ctor p).1
    rfl
  · cases (GetInstance ctor p).1
    simp [Process.deref, GetInstance_s_exec_env]
  · rw [GetInstance_of_constructed ctor _ hc]
  · rw [GetInstance_of_constructed ctor _ hr]

/-! ## Teardown -/

/-- C6: `destroy()` is idempotent: a second call right after the first
releases nothing (its release log is empty) and leaves the state the first call
left. -/
theorem destroy_idempotent (e : ExecEnv) :
    (destroy (destroy e).2).1 = [] ∧ (destroy (destroy e).2).2 = (destroy e).2 := by
  constructor
  · simp only [destroy]
    rw [List.filterMap_eq_nil_iff]
    intro f hf
    simp [hf]
  · simp only [destroy]
    congr 1
    funext f
    by_cases hf : f ∈ destroyOrder <;> simp [hf]

/-! ## Memory accounting -/

theorem sum_set_group (l : List TrackerLimiterGroup) (i : Nat) (g g1 : TrackerLimiterGroup)
    (h : l[i]? = some g) :
    ((l.set i g1).map groupConsumption).sum
      = (l.map groupConsumption).sum - groupConsumption g + groupConsumption g1 := by
  induction l generalizing i with
  | nil => simp at h
  | cons x xs ih =>
      cases i with
      | zero =>
          simp at h
          subst h
          simp only [List.set_cons_zero, List.map_cons, List.sum_cons]
          ring
      | succ j =>
          simp at h
          simp only [List.set_cons_succ, List.map_cons, List.sum_cons, ih j h]
          ring

theorem chargeGroup_consumption (id : Nat) (delta : Int) (g g1 : TrackerLimiterGroup)
    (h : chargeGroup id delta g = some g1) :
    groupConsumption g1 = groupConsumption g + delta := by
  induction g generalizing g1 with
  | nil => simp [chargeGroup] at h
  | cons t ts ih =>
      simp only [chargeGroup] at h
      split at h
      · simp at h
        subst h
        simp [groupConsumption]
        ring
      · cases hr : chargeGroup id delta ts with
        | none => simp [hr] at h
        | some r =>
            simp [hr] at h
            subst h
            have := ih r hr
            simp [groupConsumption] at this ⊢
            rw [this]
            ring

theorem takeFromGroup_consumption (id : Nat) (g g1 : TrackerLimiterGroup)
    (t : MemTrackerLimiter) (h : takeFromGroup id g = some (t, g1)) :
    groupConsumption g = t.consumption + groupConsumption g1 := by
  induction g generalizing g1 with
  | nil => simp [takeFromGroup] at h
  | cons x xs ih =>
      simp only [takeFromGroup] at h
      split at h
      · simp at h
        obtain ⟨h1, h2⟩ := h
        subst h1 h2
        simp [groupConsumption]
      · cases hr : takeFromGroup id xs with
        | none => simp [hr] at h
        | some r =>
            obtain ⟨t2, r2⟩ := r
            simp [hr] at h
            obtain ⟨h1, h2⟩ := h
            subst h1 h2
            have := ih r2 hr
            simp [groupConsumption] at this ⊢
            rw [this]
            ring

theorem consume_accounted (hash : Nat → Nat) (tracker : Option Nat) (delta : Int)
    (h : MemTrackerHierarchy) (inv : Accounted h) :
    Accounted (h.consume hash tracker delta).2 := by
  have orphanCase : Accounted
      { h with
        orphan_mem_tracker :=
          { h.orphan_mem_tracker with consumption := h.orphan_mem_tracker.consumption + delta },
        process_consumption := h.process_consumption + delta } := by
    simp only [Accounted, limiterConsumption] at inv ⊢
    omega
  unfold MemTrackerHierarchy.consume
  cases tracker with
  | none => exact orphanCase
  | some id =>
      simp only
      cases hg : h.mem_tracker_limiter_pool[shardOf hash h id]? with
      | none => exact orphanCase
      | some g =>
          dsimp only
          cases hc : chargeGroup id delta g with
          | none => exact orphanCase
          | some g1 =>
              simp only [Accounted, limiterConsumption] at inv ⊢
              rw [sum_set_group _ _ g g1 hg, chargeGroup_consumption id delta g g1 hc]
              omega

theorem apply_accounted (hash : Nat → Nat) (op : TrackerOp) (h : MemTrackerHierarchy)
    (inv : Accounted h) : Accounted (op.apply hash h) := by
  cases op with
  | register id label limit =>
      simp only [TrackerOp.apply, MemTrackerHierarchy.register]
      cases hg : h.mem_tracker_limiter_pool[shardOf hash h id]? with
      | none => exact inv
      | some g =>
          simp only [Accounted, limiterConsumption] at inv ⊢
          rw [sum_set_group _ _ g _ hg]
          simp [groupConsumption] at inv ⊢
          omega
  | consume tracker delta => exact consume_accounted hash tracker delta h inv
  | release tracker delta => exact consume_accounted hash tracker (-delta) h inv
  | remove id =>
      simp only [TrackerOp.apply, MemTrackerHierarchy.remove]
      cases hg : h.mem_tracker_limiter_pool[shardOf hash h id]? with
      | none => exact inv
      | some g =>
          dsimp only
          cases ht : takeFromGroup id g with
          | none => exact inv
          | some r =>
              obtain ⟨t, g1⟩ := r
              simp only [Accounted, limiterConsumption] at inv ⊢
              rw [sum_set_group _ _ g g1 hg, takeFromGroup_consumption id g g1 t ht]
              omega

theorem after_accounted (hash : Nat → Nat) (ops : List TrackerOp) (h : MemTrackerHierarchy)
    (inv : Accounted h) : Accounted (h.after hash ops) := by
  induction ops generalizing h with
  | nil => simpa [MemTrackerHierarchy.after] using inv
  | cons op ops ih =>
      have := ih (op.apply hash h) (apply_accounted hash op h inv)
      simpa [MemTrackerHierarchy.after] using this

/-- C7: at every observation point after init (after any sequence of
registrations, consumptions, releases and removals on the hierarchy init built),
the consumption of all limiter trackers plus the consumption of the orphan
tracker equals the consumption of the process tracker. -/
theorem consumption_fully_attributed (hash : Nat → Nat) (shards : Nat) (ops : List TrackerOp) :
    limiterConsumption ((MemTrackerHierarchy.init shards).after hash ops)
      + ((MemTrackerHierarchy.init shards).after hash ops).orphan_mem_tracker.consumption
      = ((MemTrackerHierarchy.init shards).after hash ops).process_consumption := by
  have h0 : Accounted (MemTrackerHierarchy.init shards) := by
    simp only [Accounted, limiterConsumption, MemTrackerHierarchy.init]
    have : ∀ n : Nat, ((List.replicate n ([] : TrackerLimiterGroup)).map groupConsumption).sum = 0 := by
      intro n
      induction n with
      | zero => simp
      | succ k ih => simp [List.replicate_succ, groupConsumption, ih]
    rw [this]
    simp
  exact after_accounted hash ops _ h0

namespace vectorized

/-! ## URL substring helpers -/

theorem readBytes_append (data rest : List Char) (p n : Nat) (h : p + n ≤ data.length) :
    readBytes (data ++ rest) p n = some ((data.drop p).take n) := by
  induction n generalizing p with
  | zero => simp [readBytes]
  | succ k ih =>
      have hp : p < data.length := by omega
      have hk := ih (p + 1) (by omega)
      simp only [readBytes, List.getElem?_append_left hp, List.getElem?_eq_getElem hp, hk,
        Option.map_some', List.drop_eq_getElem_cons hp, List.take_succ_cons]

theorem readRange_c_str (data : List Char) (first last : Nat) (h1 : first ≤ last)
    (h2 : last ≤ data.length) :
    readRange (c_str data) first last = some ((data.drop first).take (last - first)) := by
  unfold readRange c_str
  rw [if_pos h1]
  exact readBytes_append data _ first (last - first) (by omega)

/-- C9: when the match the Extractor reports lies inside `data`,
`ExtractSubstringImpl::constant` leaves in `res_data`, whatever it held before,
exactly the `length` bytes of `data` from `start` on (byte `i` of the result is
byte `start + i` of `data`); with `length` 0 that is the empty string. -/
theorem ExtractSubstringImpl_constant_in_bounds (E : Extractor) (data res_data : List Char)
    (h : (E.execute data data.length).1 + (E.execute data data.length).2 ≤ data.length) :
    ∃ r : List Char,
      ExtractSubstringImpl.constant E data res_data = some r ∧
      r = (data.drop (E.execute data data.length).1).take (E.execute data data.length).2 ∧
      r.length = (E.execute data data.length).2 ∧
      (∀ i : Nat, i < (E.execute data data.length).2 →
        r[i]? = data[(E.execute data data.length).1 + i]?) ∧
      ((E.execute data data.length).2 = 0 → r = []) := by
  refine ⟨_, ?_, rfl, ?_, ?_, ?_⟩
  · simp only [ExtractSubstringImpl.constant, c_str, readBytes_append data _ _ _ h,
      Option.map_some', string_assign]
  · simp only [List.length_take, List.length_drop]
    omega
  · intro i hi
    rw [List.getElem?_take_of_lt hi, List.getElem?_drop]
  · intro h0
    simp [h0]

/-- Witness for C9: `innerPart` on "abcdef" leaves "bcde". -/
theorem ExtractSubstringImpl_constant_in_bounds_witness :
    (innerPart.execute "abcdef".toList 6).1 + (innerPart.execute "abcdef".toList 6).2 ≤ 6 ∧
    ExtractSubstringImpl.constant innerPart "abcdef".toList "zz".toList = some "bcde".toList := by
  refine ⟨by decide, ?_⟩
  obtain ⟨r, h1, h2, _⟩ :=
    ExtractSubstringImpl_constant_in_bounds innerPart "abcdef".toList "zz".toList (by decide)
  rw [h1, h2]
  rfl

/-- C10, as stated, fails: with `res_data` holding "x" on entry and an
Extractor that finds nothing in "a", `CutSubstringImpl::constant` leaves "xa" in
`res_data`, not "a". -/
theorem CutSubstringImpl_constant_appends :
    (findNothing.execute ['a'] 1).2 = 0 ∧ (findNothing.execute ['a'] 1).1 ≤ 1 ∧
    CutSubstringImpl.constant findNothing ['a'] ['x'] = some ['x', 'a'] ∧
    CutSubstringImpl.constant findNothing ['a'] ['x'] ≠ some ['a'] := by
  decide

/-- C10, amended: when the Extractor finds nothing in `data` (a match of length
0 at a position inside `data`), `CutSubstringImpl::constant` appends the URL
unchanged to `res_data`: on return `res_data` is its previous contents followed
by `data`, and so equals `data` when it was empty on entry. -/
theorem CutSubstringImpl_constant_nothing_found (E : Extractor) (data res_data : List Char)
    (h0 : (E.execute data data.length).2 = 0)
    (hs : (E.execute data data.length).1 ≤ data.length) :
    CutSubstringImpl.constant E data res_data = some (res_data ++ data) ∧
    CutSubstringImpl.constant E data [] = some data := by
  have key : ∀ res : List Char, CutSubstringImpl.constant E data res = some (res ++ data) := by
    intro res
    simp only [CutSubstringImpl.constant, h0, Nat.add_zero,
      readRange_c_str data 0 _ (Nat.zero_le _) hs,
      readRange_c_str data _ data.length hs (Nat.le_refl _),
      string_append, string_reserve]
    have e : List.take (data.length - (E.execute data data.length).1)
        (List.drop (E.execute data data.length).1 data)
          = List.drop (E.execute data data.length).1 data :=
      List.take_of_length_le (by simp)
    simp [e]
  exact ⟨key res_data, by simpa using key []⟩

/-- Witness for C10 amended: nothing found in "a.b/c", empty `res_data`. -/
theorem CutSubstringImpl_constant_nothing_found_witness :
    (findNothing.execute "a.b/c".toList 5).2 = 0 ∧
    (findNothing.execute "a.b/c".toList 5).1 ≤ 5 ∧
    CutSubstringImpl.constant findNothing "a.b/c".toList [] = some "a.b/c".toList :=
  ⟨rfl, by decide,
   (CutSubstringImpl_constant_nothing_found findNothing "a.b/c".toList [] rfl (by decide)).2⟩

/-- C11: when the match the Extractor reports lies inside `data`,
`CutSubstringImpl::constant` called with an empty `res_data` leaves in it the
bytes of `data` before `start` followed by the bytes of `data` from
`start + length` to the end, `data.size() - length` bytes in all. -/
theorem CutSubstringImpl_constant_in_bounds (E : Extractor) (data : List Char)
    (h : (E.execute data data.length).1 + (E.execute data data.length).2 ≤ data.length) :
    CutSubstringImpl.constant E data []
      = some (data.take (E.execute data data.length).1
              ++ data.drop ((E.execute data data.length).1 + (E.execute data data.length).2)) ∧
    (data.take (E.execute data data.length).1
      ++ data.drop ((E.execute data data.length).1 + (E.execute data data.length).2)).length
      = data.length - (E.execute data data.length).2 := by
  constructor
  · have e : List.take (data.length
          - ((E.execute data data.length).1 + (E.execute data data.length).2))
        (List.drop ((E.execute data data.length).1 + (E.execute data data.length).2) data)
          = List.drop ((E.execute data data.length).1 + (E.execute data data.length).2) data :=
      List.take_of_length_le (by simp)
    have hs : (E.execute data data.length).1 ≤ data.length := by omega
    simp only [CutSubstringImpl.constant,
      readRange_c_str data 0 (E.execute data data.length).1 (Nat.zero_le _) hs,
      readRange_c_str data _ data.length h (Nat.le_refl _),
      string_append, string_reserve, e]
    simp
  · simp only [List.length_append, List.length_take, List.length_drop]
    omega

/-- Witness for C11: cutting the inner part out of "abcdef" leaves "af". -/
theorem CutSubstringImpl_constant_in_bounds_witness :
    (innerPart.execute "abcdef".toList 6).1 + (innerPart.execute "abcdef".toList 6).2 ≤ 6 ∧
    CutSubstringImpl.constant innerPart "abcdef".toList [] = some "af".toList := by
  refine ⟨by decide, ?_⟩
  rw [(CutSubstringImpl_constant_in_bounds innerPart "abcdef".toList (by decide)).1]
  rfl

/-! ### Helper lemmas for the column loop -/

theorem readBytes_in (data : List Char) (p n : Nat) (h : p + n ≤ data.length) :
    readBytes data p n = some ((data.drop p).take n) := by
  have := readBytes_append data [] p n h
  simpa using this

theorem constant_eq_extracted (E : Extractor) (row res_data : List Char)
    (h : (E.execute row row.length).1 + (E.execute row row.length).2 ≤ row.length) :
    ExtractSubstringImpl.constant E row res_data = some (extracted E row) := by
  simp only [ExtractSubstringImpl.constant, c_str, readBytes_append row _ _ _ h,
    Option.map_some', string_assign, extracted]

theorem writeBytes_past_end (bs buf : List Char) (off : Nat) (h : buf.length ≤ off) :
    writeBytes buf off bs = buf := by
  induction bs generalizing off with
  | nil => rfl
  | cons b bs ih =>
      simp only [writeBytes, List.set_eq_of_length_le h]
      exact ih (off + 1) (by omega)

theorem writeBytes_fill (m sp pre junk : List Char) (h : junk.length = m.length) :
    writeBytes (pre ++ junk) pre.length (m ++ sp) = pre ++ m := by
  induction m generalizing pre junk with
  | nil =>
      have hj : junk = [] := List.eq_nil_of_length_eq_zero (by simpa using h)
      subst hj
      simpa using writeBytes_past_end sp pre pre.length (Nat.le_refl _)
  | cons b bs ih =>
      cases junk with
      | nil => simp at h
      | cons j js =>
          have hs : (pre ++ j :: js).set pre.length b = (pre ++ [b]) ++ js := by
            simp
          have hl : pre.length + 1 = (pre ++ [b]).length := by simp
          show writeBytes ((pre ++ j :: js).set pre.length b) (pre.length + 1) (bs ++ sp) = _
          rw [hs, hl, ih (pre ++ [b]) js (by simpa using h)]
          simp

theorem memcpy_after_resize (u : Unspecified) (rd matched spill : List Char) :
    memcpy_small_allow_read_write_overflow15
        (resize u.byte rd (rd.length + matched.length)) rd.length matched spill
      = rd ++ matched := by
  unfold memcpy_small_allow_read_write_overflow15 resize
  have ht : rd.take (rd.length + matched.length) = rd := List.take_of_length_le (by omega)
  rw [ht]
  split
  · next h0 =>
      have hm : matched = [] := List.eq_nil_of_length_eq_zero h0
      subst hm
      simp
  · exact writeBytes_fill matched spill rd _ (by simp)

theorem slice_of_slice (xs : List Char) (p n s l : Nat) (h : s + l ≤ n) :
    (((xs.drop p).take n).drop s).take l = (xs.drop (p + s)).take l := by
  rw [List.drop_take, List.take_take, List.drop_drop, Nat.min_eq_left (by omega)]

theorem extracted_length (E : Extractor) (row : List Char) (h : inBounds E row) :
    (extracted E row).length = (E.execute row row.length).2 := by
  unfold inBounds at h
  simp only [extracted, List.length_take, List.length_drop]
  omega

theorem take_succ_set (l : List Nat) (i v : Nat) (h : i < l.length) :
    (l.set i v).take (i + 1) = l.take i ++ [v] := by
  induction l generalizing i with
  | nil => simp at h
  | cons a t ih =>
      cases i with
      | zero => simp
      | succ j =>
          have := ih j (by simpa using h)
          simp [this]

theorem le_getLast_of_pairwise (l : List Nat) (o : Nat) (hp : l.Pairwise (· ≤ ·))
    (ho : o ∈ l) : o ≤ l.getLast?.getD 0 := by
  induction l generalizing o with
  | nil => simp at ho
  | cons a t ih =>
      cases t with
      | nil =>
          simp at ho
          simp [ho]
      | cons b t2 =>
          rw [List.getLast?_cons_cons]
          rw [List.pairwise_cons] at hp
          rcases List.mem_cons.mp ho with h | h
          · subst h
            exact le_trans (hp.1 b (List.mem_cons_self _ _))
              (ih b hp.2 (List.mem_cons_self _ _))
          · exact ih o hp.2 h

/-- One turn of the loop on a row that lies inside `data`, with an in-bounds
match, when `res_offset` is the size of `res_data`: the matched bytes are added
at the end of `res_data` and their end is recorded as the offset of row `i`. -/
theorem vectorLoop_step (E : Extractor) (offsetBits : Nat) (u : Unspecified)
    (data : List Char) (i off prev : Nat) (rest : List Nat) (rd : List Char) (rofs : List Nat)
    (hbits : offsetBits ≤ 64) (hpo : prev ≤ off) (hod : off ≤ data.length)
    (how : off < 2 ^ offsetBits) (hrd : rd.length ≤ prev)
    (hE : inBounds E ((data.drop prev).take (off - prev))) :
    ExtractSubstringImpl.vectorLoop E offsetBits u data i (off :: rest) prev rd.length rd rofs
      = ExtractSubstringImpl.vectorLoop E offsetBits u data (i + 1) rest off
          (rd ++ extracted E ((data.drop prev).take (off - prev))).length
          (rd ++ extracted E ((data.drop prev).take (off - prev)))
          (rofs.set i (rd.length + (extracted E ((data.drop prev).take (off - prev))).length)) := by
  have h64 : 2 ^ offsetBits ≤ 2 ^ 64 := Nat.pow_le_pow_right (by decide) hbits
  have ho64 : off < 2 ^ 64 := lt_of_lt_of_le how h64
  have hsz : (off + 2 ^ 64 - prev) % 2 ^ 64 = off - prev := by omega
  have hrowlen : ((data.drop prev).take (off - prev)).length = off - prev := by
    simp only [List.length_take, List.length_drop]
    omega
  have hlen := extracted_length E _ hE
  have hinb := hE
  unfold inBounds at hinb
  rw [hrowlen] at hinb hlen
  have hrow : readBytes data prev (off - prev) = some ((data.drop prev).take (off - prev)) :=
    readBytes_in data prev (off - prev) (by omega)
  have hmatched :
      readBytes data
          (prev + (E.execute ((data.drop prev).take (off - prev)) (off - prev)).1)
          (E.execute ((data.drop prev).take (off - prev)) (off - prev)).2
        = some (extracted E ((data.drop prev).take (off - prev))) := by
    rw [readBytes_in data _ _ (by omega)]
    simp only [extracted, hrowlen]
    rw [slice_of_slice data prev (off - prev) _ _ hinb]
  have hcopy := memcpy_after_resize u rd (extracted E ((data.drop prev).take (off - prev)))
    (u.spill i)
  rw [hlen] at hcopy
  have hmod1 : (rd.length + (E.execute ((data.drop prev).take (off - prev)) (off - prev)).2)
      % 2 ^ 64 = rd.length + (E.execute ((data.drop prev).take (off - prev)) (off - prev)).2 :=
    Nat.mod_eq_of_lt (by omega)
  have hmod2 : (rd.length + (E.execute ((data.drop prev).take (off - prev)) (off - prev)).2)
      % 2 ^ offsetBits
        = rd.length + (E.execute ((data.drop prev).take (off - prev)) (off - prev)).2 :=
    Nat.mod_eq_of_lt (by omega)
  rw [ExtractSubstringImpl.vectorLoop]
  simp only [hsz, hrow, hmatched, hcopy, hmod1, hmod2, List.length_append, hlen]

/-- The loop on a well-formed rest of a column, started with `res_offset` the
size of `res_data`: it adds the matched parts of the remaining rows to
`res_data`, in order, and records their ends in `res_offsets[i..]`. -/
theorem vectorLoop_rows (E : Extractor) (offsetBits : Nat) (u : Unspecified)
    (data : List Char) (hbits : offsetBits ≤ 64) (rest : List Nat) :
    ∀ (i prev : Nat) (rd : List Char) (rofs : List Nat),
      rd.length ≤ prev →
      (∀ o ∈ rest, prev ≤ o) →
      rest.Pairwise (· ≤ ·) →
      (∀ o ∈ rest, o ≤ data.length) →
      (∀ o ∈ rest, o < 2 ^ offsetBits) →
      (∀ row ∈ rowsFrom data prev rest, inBounds E row) →
      rofs.length = i + rest.length →
      ExtractSubstringImpl.vectorLoop E offsetBits u data i rest prev rd.length rd rofs
        = some (rd ++ ((rowsFrom data prev rest).map (extracted E)).flatten,
                rofs.take i ++ offsetsOf rd.length
                  ((rowsFrom data prev rest).map (fun r => (extracted E r).length))) := by
  induction rest with
  | nil =>
      intro i prev rd rofs _ _ _ _ _ _ hl
      have ht : rofs.take i = rofs :=
        List.take_of_length_le (by simp only [List.length_nil] at hl; omega)
      simp [ExtractSubstringImpl.vectorLoop, rowsFrom, offsetsOf, ht]
  | cons off rest ih =>
      intro i prev rd rofs hrd hprev hmono hdata htype hE hl
      have hpo : prev ≤ off := hprev off (List.mem_cons_self _ _)
      have hod : off ≤ data.length := hdata off (List.mem_cons_self _ _)
      have how : off < 2 ^ offsetBits := htype off (List.mem_cons_self _ _)
      rw [List.pairwise_cons] at hmono
      have hrowE : inBounds E ((data.drop prev).take (off - prev)) :=
        hE _ (by simp [rowsFrom])
      have hrowlen : ((data.drop prev).take (off - prev)).length = off - prev := by
        simp only [List.length_take, List.length_drop]
        omega
      have hlen := extracted_length E _ hrowE
      have hinb := hrowE
      unfold inBounds at hinb
      rw [hrowlen] at hinb hlen
      rw [vectorLoop_step E offsetBits u data i off prev rest rd rofs hbits hpo hod how hrd hrowE]
      rw [ih (i + 1) off (rd ++ extracted E ((data.drop prev).take (off - prev)))
            (rofs.set i (rd.length + (extracted E ((data.drop prev).take (off - prev))).length))
            (by simp only [List.length_append, hlen]; omega)
            hmono.1 hmono.2
            (fun o ho => hdata o (List.mem_cons_of_mem _ ho))
            (fun o ho => htype o (List.mem_cons_of_mem _ ho))
            (fun row hr => hE row (by simp [rowsFrom, hr]))
            (by simp only [List.length_set, List.length_cons] at hl ⊢; omega)]
      rw [take_succ_set rofs i _ (by simp only [List.length_cons] at hl; omega)]
      simp [rowsFrom, offsetsOf]

/-- The rows of a column built by putting byte strings one after the other
behind `pre`, with their ends as offsets, are those byte strings. -/
theorem rowsFrom_flatten (L : List (List Char)) :
    ∀ pre : List Char,
      rowsFrom (pre ++ L.flatten) pre.length (offsetsOf pre.length (L.map List.length)) = L := by
  induction L with
  | nil => intro pre; rfl
  | cons x xs ih =>
      intro pre
      have h := ih (pre ++ x)
      simp only [List.length_append, List.append_assoc] at h
      simp only [List.map_cons, offsetsOf, rowsFrom, List.flatten_cons, h,
        Nat.add_sub_cancel_left, List.drop_left]
      simp

theorem resize_length {α : Type} (junk : Nat → α) (xs : List α) (n : Nat) :
    (resize junk xs n).length = n := by
  simp only [resize, List.length_append, List.length_take, List.length_map, List.length_range]
  omega

theorem offsetsOf_length (ns : List Nat) : ∀ start : Nat, (offsetsOf start ns).length = ns.length := by
  induction ns with
  | nil => intro start; rfl
  | cons n ns ih => intro start; simp [offsetsOf, ih]

theorem rowsFrom_length (data : List Char) (offsets : List Nat) :
    ∀ prev : Nat, (rowsFrom data prev offsets).length = offsets.length := by
  induction offsets with
  | nil => intro prev; rfl
  | cons off rest ih => intro prev; simp [rowsFrom, ih]

/-- C12: on a well-formed string column (offsets of the offset type,
non-decreasing, the last one at most `data.size()`), with an empty `res_data`
and an Extractor whose match lies inside each row, `ExtractSubstringImpl::vector`
returns OK and leaves a column with as many rows as the input, row `i` of which
is what `ExtractSubstringImpl::constant` leaves when applied to row `i` of the
input; this whatever `res_offsets` held and whatever the unspecified values
are. -/
theorem ExtractSubstringImpl_vector_rows (E : Extractor) (offsetBits : Nat) (u : Unspecified)
    (data : List Char) (offsets res_offsets : List Nat)
    (hbits : offsetBits ≤ 64)
    (htype : ∀ o ∈ offsets, o < 2 ^ offsetBits)
    (hmono : offsets.Pairwise (· ≤ ·))
    (hlast : offsets.getLast?.getD 0 ≤ data.length)
    (hE : ∀ row ∈ rows data offsets,
      (E.execute row row.length).1 + (E.execute row row.length).2 ≤ row.length) :
    ∃ (rd : List Char) (rofs : List Nat),
      ExtractSubstringImpl.vector E offsetBits u data offsets [] res_offsets
        = some (Status.OK, rd, rofs) ∧
      rofs.length = offsets.length ∧
      (rows rd rofs).length = (rows data offsets).length ∧
      (∀ res0 : List Char,
        (rows data offsets).map (fun row => ExtractSubstringImpl.constant E row res0)
          = (rows rd rofs).map some) ∧
      (∀ (i : Nat) (row res0 : List Char), (rows data offsets)[i]? = some row →
        ∃ out : List Char,
          (rows rd rofs)[i]? = some out ∧
          ExtractSubstringImpl.constant E row res0 = some out) := by
  have hdata : ∀ o ∈ offsets, o ≤ data.length := fun o ho =>
    le_trans (le_getLast_of_pairwise offsets o hmono ho) hlast
  have hloop := vectorLoop_rows E offsetBits u data hbits offsets 0 0 []
    (resize u.offset res_offsets offsets.length) (Nat.le_refl _)
    (fun o _ => Nat.zero_le o) hmono hdata htype hE
    (by rw [resize_length]; omega)
  have hrows : rows (((rows data offsets).map (extracted E)).flatten)
      (offsetsOf 0 ((rows data offsets).map (fun r => (extracted E r).length)))
        = (rows data offsets).map (extracted E) := by
    have h := rowsFrom_flatten ((rows data offsets).map (extracted E)) []
    simp only [List.nil_append, List.length_nil, List.map_map] at h
    exact h
  have hconst : ∀ res0 : List Char,
      (rows data offsets).map (fun row => ExtractSubstringImpl.constant E row res0)
        = ((rows data offsets).map (extracted E)).map some := by
    intro res0
    rw [List.map_map]
    apply List.map_congr_left
    intro row hrow
    exact constant_eq_extracted E row res0 (hE row hrow)
  refine ⟨((rows data offsets).map (extracted E)).flatten,
    offsetsOf 0 ((rows data offsets).map (fun r => (extracted E r).length)), ?_, ?_, ?_, ?_, ?_⟩
  · simp only [ExtractSubstringImpl.vector, reserve]
    simp only [List.length_nil] at hloop
    rw [hloop]
    simp [rows]
  · rw [offsetsOf_length, List.length_map]
    exact rowsFrom_length data offsets 0
  · rw [hrows, List.length_map]
  · intro res0
    rw [hrows]
    exact hconst res0
  · intro i row res0 hi
    refine ⟨extracted E row, ?_, ?_⟩
    · rw [hrows, List.getElem?_map, hi]
      rfl
    · exact constant_eq_extracted E row res0
        (hE row (List.getElem?_mem hi))

/-- Witness for C12: `firstByte` on the column of rows "abcd", "", "efg", "hij". -/
theorem ExtractSubstringImpl_vector_rows_witness :
    ExtractSubstringImpl.vector firstByte 32 someUnspecified "abcdefghij".toList [4, 4, 7, 10]
        [] [9] = some (Status.OK, "aeh".toList, [1, 1, 2, 3]) ∧
    ∃ (rd : List Char) (rofs : List Nat),
      ExtractSubstringImpl.vector firstByte 32 someUnspecified "abcdefghij".toList
          [4, 4, 7, 10] [] [9] = some (Status.OK, rd, rofs) ∧
      rofs.length = 4 ∧
      (rows rd rofs).length = (rows "abcdefghij".toList [4, 4, 7, 10]).length ∧
      (∀ res0 : List Char,
        (rows "abcdefghij".toList [4, 4, 7, 10]).map
            (fun row => ExtractSubstringImpl.constant firstByte row res0)
          = (rows rd rofs).map some) ∧
      (∀ (i : Nat) (row res0 : List Char),
        (rows "abcdefghij".toList [4, 4, 7, 10])[i]? = some row →
        ∃ out : List Char,
          (rows rd rofs)[i]? = some out ∧
          ExtractSubstringImpl.constant firstByte row res0 = some out) :=
  ⟨by decide,
   ExtractSubstringImpl_vector_rows firstByte 32 someUnspecified "abcdefghij".toList
     [4, 4, 7, 10] [9] (by decide) (by decide) (by decide) (by decide) (by decide)⟩

end vectorized

end doris
